import Mathlib

/-!
Verification of the schema-coordinate pipeline of this repository:
the `SchemaCoordinateLexer` (src/language/schemaCoordinateLexer.ts),
the string-splitting `parseSchemaCoordinate` (src/language/schemaCoordinate.ts)
and the two copies of the resolver in src/utilities/resolveSchemaCoordinate.ts.

Sources are translated directly; the few helpers the sources import from
modules not included here (character classes, `readName`, `printCodePointAt`,
`GraphQLSchema.getField`) are modelled from the specification and marked
`Modelled from the spec:` in their doc comments.

Strings are modelled as `List Char` with positions as character offsets,
matching the code-unit offsets of the source for the characters involved.
-/

/-- Token kinds of the schema-coordinate lexer (language/tokenKind.js):
start-of-file, end-of-file, name, and the five punctuators. -/
inductive TokenKind where
  | SOF
  | EOF
  | NAME
  | DOT
  | PAREN_L
  | PAREN_R
  | COLON
  | AT
deriving DecidableEq, Repr

/-- A lexed token: kind, start and end offsets into the source body, and the
lexed value (non-empty only for NAME tokens, where the source leaves it
undefined otherwise we use the empty string). The `prev`/`next` chain links of
the source are modelled by the `emitted` list of `SchemaCoordinateLexer`. -/
structure Token where
  kind : TokenKind
  start : Nat
  endPos : Nat
  value : String
deriving DecidableEq, Repr

/-- A lexical error: message plus the reported 1-indexed line and column.
The schema-coordinate lexer reports `line = 1` always and
`column = offset + 1` (its `line` is pinned to 1 and `lineStart` to 0). -/
structure LexError where
  message : String
  line : Nat
  column : Nat
deriving DecidableEq, Repr

/-- Modelled from the spec: `isLetter` from language/characterClasses.js
(not included in the sources) — an ASCII letter. -/
def isLetter (c : Char) : Bool :=
  ('a' ≤ c && c ≤ 'z') || ('A' ≤ c && c ≤ 'Z')

/-- Modelled from the spec: `isDigit` from language/characterClasses.js
(not included in the sources) — an ASCII digit. -/
def isDigit (c : Char) : Bool :=
  '0' ≤ c && c ≤ '9'

/-- Modelled from the spec: `isNameStart` from language/characterClasses.js —
a valid first character of a Name: a letter or underscore. -/
def isNameStart (c : Char) : Bool :=
  isLetter c || c == '_'

/-- Modelled from the spec: `isNameContinue` from language/characterClasses.js —
a valid non-first character of a Name: a letter, digit or underscore. -/
def isNameContinue (c : Char) : Bool :=
  isLetter c || isDigit c || c == '_'

/-- Uppercase hexadecimal digit for a value below 16. -/
def hexDigit (n : Nat) : Char :=
  if n < 10 then Char.ofNat (48 + n) else Char.ofNat (55 + n)

/-- Hexadecimal digits of `n` (most significant first), with enough fuel for
any Unicode code point. -/
def hexDigitsAux (fuel : Nat) (n : Nat) : List Char :=
  match fuel with
  | 0 => []
  | fuel + 1 =>
    if n = 0 then [] else hexDigitsAux fuel (n / 16) ++ [hexDigit (n % 16)]

/-- Uppercase hexadecimal rendering of `n`. -/
def hexOf (n : Nat) : String :=
  if n = 0 then "0" else String.mk (hexDigitsAux 8 n)

/-- Left-pad a string with zeros to at least four characters. -/
def padStart4 (s : String) : String :=
  if 4 ≤ s.length then s else String.mk (List.replicate (4 - s.length) '0') ++ s

/-- Modelled from the spec: the code-point printer of language/lexer.js used in
lexical error messages — printable ASCII is shown quoted, anything else as
`U+XXXX`. -/
def printCodePoint (c : Char) : String :=
  if 0x20 ≤ c.toNat && c.toNat ≤ 0x7e then "\"" ++ String.mk [c] ++ "\""
  else "U+" ++ padStart4 (hexOf c.toNat)

/-- Modelled from the spec: `printCodePointAt` of language/lexer.js — prints
the code point at a position, or `<EOF>` past the end of the body. -/
def printCodePointAt (body : List Char) (position : Nat) : String :=
  match body[position]? with
  | some c => printCodePoint c
  | none => "<EOF>"

/-- The scanning loop of `readName`: starting from `position`, advance while
the character is a valid name-continue character, returning the first position
that is not. Fuel-based; `body.length` fuel always suffices. -/
def nameRunFrom (body : List Char) (fuel : Nat) (position : Nat) : Nat :=
  match fuel with
  | 0 => position
  | fuel + 1 =>
    match body[position]? with
    | some c => if isNameContinue c then nameRunFrom body fuel (position + 1) else position
    | none => position

/-- Modelled from the spec: `readName` of language/lexer.js (not included in
the sources) — reads a NAME token as the maximal run of name characters from
`start`, which the schema-coordinate lexer has already checked to be a valid
name-start character. -/
def readName (body : List Char) (start : Nat) : Token :=
  let stop := nameRunFrom body body.length (start + 1)
  { kind := TokenKind.NAME
    start := start
    endPos := stop
    value := String.mk ((body.drop start).take (stop - start)) }

/-- `readNextToken` of src/language/schemaCoordinateLexer.ts: lex the token
beginning at `start`. Punctuators are single characters, a name-start
character begins a NAME, end of body yields EOF, and any other character —
including whitespace and a byte-order mark, which this lexer does not skip —
is a lexical error at that exact offset. -/
def readNextToken (body : List Char) (start : Nat) : Except LexError Token :=
  match body[start]? with
  | some code =>
    if code = '.' then .ok ⟨TokenKind.DOT, start, start + 1, ""⟩
    else if code = '(' then .ok ⟨TokenKind.PAREN_L, start, start + 1, ""⟩
    else if code = ')' then .ok ⟨TokenKind.PAREN_R, start, start + 1, ""⟩
    else if code = ':' then .ok ⟨TokenKind.COLON, start, start + 1, ""⟩
    else if code = '@' then .ok ⟨TokenKind.AT, start, start + 1, ""⟩
    else if isNameStart code then .ok (readName body start)
    else .error ⟨"Invalid character: " ++ printCodePoint code ++ ".", 1, start + 1⟩
  | none => .ok ⟨TokenKind.EOF, body.length, body.length, ""⟩

/-- The state of a `SchemaCoordinateLexer` (src/language/schemaCoordinateLexer.ts):
the source body, the previously and currently focused tokens, and the
append-only chain of tokens created so far (the `prev`/`next` links of the
source, recorded as a list). `line` is always 1 and `lineStart` always 0. -/
structure SchemaCoordinateLexer where
  body : List Char
  lastToken : Token
  token : Token
  emitted : List Token
deriving DecidableEq, Repr

/-- The constructor of `SchemaCoordinateLexer`: both foci start at the
start-of-file token. -/
def SchemaCoordinateLexer.init (body : List Char) : SchemaCoordinateLexer :=
  let startOfFileToken : Token := ⟨TokenKind.SOF, 0, 0, ""⟩
  ⟨body, startOfFileToken, startOfFileToken, [startOfFileToken]⟩

/-- `SchemaCoordinateLexer.lookahead`: the next token without moving the
focus — the current token itself once it is EOF, otherwise the token read
from the current token's end offset. -/
def SchemaCoordinateLexer.lookahead (s : SchemaCoordinateLexer) : Except LexError Token :=
  if s.token.kind = TokenKind.EOF then .ok s.token
  else readNextToken s.body s.token.endPos

/-- `SchemaCoordinateLexer.advance`: focus the next token
(`lastToken := token; token := lookahead()`). A newly read token is linked
into the chain (recorded in `emitted`); in the EOF case the same token is
returned again and no token is created. -/
def SchemaCoordinateLexer.advance (s : SchemaCoordinateLexer) :
    Except LexError (SchemaCoordinateLexer × Token) :=
  if s.token.kind = TokenKind.EOF then
    .ok ({ s with lastToken := s.token }, s.token)
  else
    match readNextToken s.body s.token.endPos with
    | .error e => .error e
    | .ok t =>
      .ok ({ s with lastToken := s.token, token := t, emitted := s.emitted ++ [t] }, t)

/-- Iterated `advance`, short-circuiting on a lexical error; returns the last
state and the last focused token. -/
def SchemaCoordinateLexer.advanceIter (n : Nat) (s : SchemaCoordinateLexer) :
    Except LexError (SchemaCoordinateLexer × Token) :=
  match n with
  | 0 => .ok (s, s.token)
  | n + 1 =>
    match s.advance with
    | .error e => .error e
    | .ok (s', _) => SchemaCoordinateLexer.advanceIter n s'

/-- The characters the claims call whitespace: space, tab, newline and
carriage return. -/
def isForbiddenWhitespace (c : Char) : Bool :=
  c == ' ' || c == '\t' || c == '\n' || c == '\r'

/-- A Name node of the coordinate AST (language/ast.js): a bare identifier. -/
structure NameNode where
  value : String
deriving DecidableEq, Repr

/-- `TypeCoordinateNode`: the production `Name`. -/
structure TypeCoordinateNode where
  name : NameNode
deriving DecidableEq, Repr

/-- `MemberCoordinateNode`: the production `Name . Name`. -/
structure MemberCoordinateNode where
  name : NameNode
  memberName : NameNode
deriving DecidableEq, Repr

/-- `ArgumentCoordinateNode`: the production `Name . Name ( Name : )`. -/
structure ArgumentCoordinateNode where
  name : NameNode
  fieldName : NameNode
  argumentName : NameNode
deriving DecidableEq, Repr

/-- `DirectiveCoordinateNode`: the production `@ Name`. -/
structure DirectiveCoordinateNode where
  name : NameNode
deriving DecidableEq, Repr

/-- `DirectiveArgumentCoordinateNode`: the production `@ Name ( Name : )`. -/
structure DirectiveArgumentCoordinateNode where
  name : NameNode
  argumentName : NameNode
deriving DecidableEq, Repr

/-- `SchemaCoordinateNode`: the closed union of the five coordinate
productions. -/
inductive SchemaCoordinateNode where
  | typeCoordinate (node : TypeCoordinateNode)
  | memberCoordinate (node : MemberCoordinateNode)
  | argumentCoordinate (node : ArgumentCoordinateNode)
  | directiveCoordinate (node : DirectiveCoordinateNode)
  | directiveArgumentCoordinate (node : DirectiveArgumentCoordinateNode)
deriving DecidableEq, Repr

/-- A `GraphQLError` as produced by the string-splitting parser of
src/language/schemaCoordinate.ts: a message and the optional reported
(line, column) location. The local `syntaxError` helper of that file passes
no position, so the errors it builds carry no location. -/
structure GraphQLError where
  message : String
  location : Option (Nat × Nat)
deriving DecidableEq, Repr

/-- `DecidableEq` for `Except`, so concrete lexer and parser outcomes can be
settled by `decide`. -/
instance {ε α : Type} [DecidableEq ε] [DecidableEq α] : DecidableEq (Except ε α) :=
  fun a b =>
    match a, b with
    | .error e1, .error e2 =>
      if h : e1 = e2 then .isTrue (by rw [h]) else .isFalse (by intro hc; cases hc; exact h rfl)
    | .ok v1, .ok v2 =>
      if h : v1 = v2 then .isTrue (by rw [h]) else .isFalse (by intro hc; cases hc; exact h rfl)
    | .error _, .ok _ => .isFalse (by intro hc; cases hc)
    | .ok _, .error _ => .isFalse (by intro hc; cases hc)

/-- `body.split(sep)` of JavaScript for a single-character separator, on the
character list: the (possibly empty) pieces between occurrences of `sep`. -/
def splitOnChar (sep : Char) : List Char → List (List Char)
  | [] => [[]]
  | c :: rest =>
    let r := splitOnChar sep rest
    if c = sep then [] :: r
    else
      match r with
      | [] => [[c]]
      | piece :: more => (c :: piece) :: more

/-- `body.startsWith(c)` for a single character. -/
def startsWithChar (c : Char) : List Char → Bool
  | [] => false
  | x :: _ => x == c

/-- `body.endsWith(':)')`. -/
def endsWithColonParen (l : List Char) : Bool :=
  match l.reverse with
  | ')' :: ':' :: _ => true
  | _ => false

namespace SchemaCoordinate

/-- The local `syntaxError` of src/language/schemaCoordinate.ts: it builds a
`GraphQLError` from the source and a description only — no position is
supplied, so no location is attached. -/
def syntaxError (description : String) : GraphQLError :=
  ⟨"Syntax Error: " ++ description, none⟩

/-- Modelled from the spec: the shared lexer's `readName` (language/lexer.js)
as invoked on an arbitrary string by schemaCoordinate.ts — a NAME token
requires at least one valid name-start character, then extends over the
maximal run of name characters; anything else is a positioned lexical
error. -/
def readNameChecked (body : List Char) (start : Nat) : Except GraphQLError Token :=
  match body[start]? with
  | some c =>
    if isNameStart c then .ok (readName body start)
    else .error ⟨"Syntax Error: Invalid character: " ++ printCodePoint c ++ ".",
                 some (1, start + 1)⟩
  | none => .error ⟨"Syntax Error: Invalid character: <EOF>.", some (1, start + 1)⟩

/-- The local `readName` wrapper of src/language/schemaCoordinate.ts: lex a
name from the start of `body`. -/
def readNameLocal (body : List Char) : Except GraphQLError Token :=
  readNameChecked body 0

/-- `readNameOnly` of src/language/schemaCoordinate.ts: lex a name from the
start of `body` and reject trailing characters — via the local `syntaxError`,
hence without a location. -/
def readNameOnly (body : List Char) : Except GraphQLError Token :=
  match readNameChecked body 0 with
  | .error e => .error e
  | .ok token =>
    if body.length > token.endPos then
      .error (syntaxError ("Invalid character: " ++ printCodePointAt body token.endPos))
    else .ok token

/-- `parseSchemaCoordinate` of src/language/schemaCoordinate.ts: split the
body on `.` and recognize the five productions by string surgery on the
pieces. -/
def parseSchemaCoordinate (source : String) : Except GraphQLError SchemaCoordinateNode :=
  let names := splitOnChar '.' source.data
  match names with
  | [n0] =>
    if startsWithChar '@' n0 then
      match readNameLocal (n0.drop 1) with
      | .error e => .error e
      | .ok name =>
        let argument := n0.drop (1 + name.endPos)
        if argument.length = 0 then
          .ok (.directiveCoordinate ⟨⟨name.value⟩⟩)
        else if !(startsWithChar '(' argument && endsWithColonParen argument) then
          .error (syntaxError "Unexpected characters")
        else
          match readNameOnly ((argument.drop 1).take (argument.length - 3)) with
          | .error e => .error e
          | .ok arg => .ok (.directiveArgumentCoordinate ⟨⟨name.value⟩, ⟨arg.value⟩⟩)
    else
      match readNameOnly n0 with
      | .error e => .error e
      | .ok name => .ok (.typeCoordinate ⟨⟨name.value⟩⟩)
  | [n0, n1] =>
    match readNameOnly n0 with
    | .error e => .error e
    | .ok typeName =>
      match readNameLocal n1 with
      | .error e => .error e
      | .ok fieldName =>
        let argument := n1.drop fieldName.endPos
        if argument.length = 0 then
          .ok (.memberCoordinate ⟨⟨typeName.value⟩, ⟨fieldName.value⟩⟩)
        else if !(startsWithChar '(' argument && endsWithColonParen argument) then
          .error (syntaxError "Unexpected characters")
        else
          match readNameOnly ((argument.drop 1).take (argument.length - 3)) with
          | .error e => .error e
          | .ok arg =>
            .ok (.argumentCoordinate ⟨⟨typeName.value⟩, ⟨fieldName.value⟩, ⟨arg.value⟩⟩)
  | _ => .error (syntaxError "Expected <EOF>, found ..")

end SchemaCoordinate

/-- A `GraphQLArgument` of the type system: only the name matters to
coordinate resolution. -/
structure GraphQLArgument where
  name : String
deriving DecidableEq, Repr

/-- A `GraphQLField`: its name and its ordered argument list `args`. -/
structure GraphQLField where
  name : String
  args : List GraphQLArgument
deriving DecidableEq, Repr

/-- A `GraphQLInputField` of an Input Object type. -/
structure GraphQLInputField where
  name : String
deriving DecidableEq, Repr

/-- A `GraphQLEnumValue` of an Enum type. -/
structure GraphQLEnumValue where
  name : String
deriving DecidableEq, Repr

/-- The kind of a named type, matched by the `isEnumType` /
`isInputObjectType` / `isObjectType` / `isInterfaceType` predicates. -/
inductive TypeKind where
  | SCALAR
  | OBJECT
  | INTERFACE
  | UNION
  | ENUM
  | INPUT_OBJECT
deriving DecidableEq, Repr

/-- A `GraphQLNamedType` as the resolver consumes it: a name, a kind, a field
map (Object and Interface types), an input-field map (Input Object types) and
an enum-value map (Enum types). GraphQL field maps are keyed by the member's
own name, so each map is a list searched by name. -/
structure GraphQLNamedType where
  name : String
  kind : TypeKind
  fields : List GraphQLField
  inputFields : List GraphQLInputField
  enumValues : List GraphQLEnumValue
deriving DecidableEq, Repr

/-- `type.getFields()[name]` for an Object or Interface type: look the field
up in the type's field map. -/
def GraphQLNamedType.getFields (t : GraphQLNamedType) (name : String) : Option GraphQLField :=
  t.fields.find? fun f => f.name == name

/-- `type.getFields()[name]` for an Input Object type. -/
def GraphQLNamedType.getInputFields (t : GraphQLNamedType) (name : String) :
    Option GraphQLInputField :=
  t.inputFields.find? fun f => f.name == name

/-- `type.getValue(name)` for an Enum type. -/
def GraphQLNamedType.getValue (t : GraphQLNamedType) (name : String) : Option GraphQLEnumValue :=
  t.enumValues.find? fun v => v.name == name

/-- `isEnumType`. -/
def isEnumType (t : GraphQLNamedType) : Bool := t.kind == TypeKind.ENUM

/-- `isInputObjectType`. -/
def isInputObjectType (t : GraphQLNamedType) : Bool := t.kind == TypeKind.INPUT_OBJECT

/-- `isObjectType`. -/
def isObjectType (t : GraphQLNamedType) : Bool := t.kind == TypeKind.OBJECT

/-- `isInterfaceType`. -/
def isInterfaceType (t : GraphQLNamedType) : Bool := t.kind == TypeKind.INTERFACE

/-- A `GraphQLDirective`: its name and its ordered argument list `args`. -/
structure GraphQLDirective where
  name : String
  args : List GraphQLArgument
deriving DecidableEq, Repr

/-- A `GraphQLSchema` as the resolver consumes it: its named types and its
directives. -/
structure GraphQLSchema where
  types : List GraphQLNamedType
  directives : List GraphQLDirective
deriving DecidableEq, Repr

/-- `schema.getType(name)`. -/
def GraphQLSchema.getType (s : GraphQLSchema) (name : String) : Option GraphQLNamedType :=
  s.types.find? fun t => t.name == name

/-- `schema.getDirective(name)`. -/
def GraphQLSchema.getDirective (s : GraphQLSchema) (name : String) : Option GraphQLDirective :=
  s.directives.find? fun d => d.name == name

/-- Modelled from the spec: `schema.getField(type, name)` (type/schema.ts, not
included in the sources) — the spec's schema oracle exposes field lookup as
"a type's field map", so the lookup is the field of `type` named `name`. -/
def GraphQLSchema.getField (_s : GraphQLSchema) (t : GraphQLNamedType) (name : String) :
    Option GraphQLField :=
  t.getFields name

/-- `inspect` as applied to a type, field or directive name in the resolver's
error messages: the name in double quotes. -/
def inspect (s : String) : String := "\"" ++ s ++ "\""

/-- The seven variants of `ResolvedSchemaElement`, each holding the schema
objects the resolver returned. -/
inductive ResolvedSchemaElement where
  | namedType (type : GraphQLNamedType)
  | field (type : GraphQLNamedType) (field : GraphQLField)
  | inputField (type : GraphQLNamedType) (inputField : GraphQLInputField)
  | enumValue (type : GraphQLNamedType) (enumValue : GraphQLEnumValue)
  | fieldArgument (type : GraphQLNamedType) (field : GraphQLField)
      (fieldArgument : GraphQLArgument)
  | directive (directive : GraphQLDirective)
  | directiveArgument (directive : GraphQLDirective) (directiveArgument : GraphQLArgument)
deriving DecidableEq, Repr

/-!
`Copy1` is the first copy of the resolver in
src/utilities/resolveSchemaCoordinate.ts (lines 101-326). A thrown `Error`
is `Except.error` with its message; returning `undefined` is `.ok none`.
-/

namespace Copy1

/-- First copy of `resolveDirectiveCoordinate`: root directive lookup, missing
is an ordinary miss. -/
def resolveDirectiveCoordinate (schema : GraphQLSchema)
    (schemaCoordinate : DirectiveCoordinateNode) :
    Except String (Option ResolvedSchemaElement) :=
  let directiveName := schemaCoordinate.name.value
  match schema.getDirective directiveName with
  | none => .ok none
  | some directive => .ok (some (.directive directive))

/-- First copy of `resolveDirectiveArgumentCoordinate`: the directive is
asserted present, the argument lookup is an ordinary miss. -/
def resolveDirectiveArgumentCoordinate (schema : GraphQLSchema)
    (schemaCoordinate : DirectiveArgumentCoordinateNode) :
    Except String (Option ResolvedSchemaElement) :=
  let directiveName := schemaCoordinate.name.value
  match schema.getDirective directiveName with
  | none =>
    .error ("Expected " ++ inspect directiveName ++
      " to be defined as a directive in the schema.")
  | some directive =>
    let directiveArgumentName := schemaCoordinate.argumentName.value
    match directive.args.find? (fun arg => arg.name == directiveArgumentName) with
    | none => .ok none
    | some directiveArgument => .ok (some (.directiveArgument directive directiveArgument))

/-- First copy of `resolveTypeCoordinate`: root type lookup, missing is an
ordinary miss. -/
def resolveTypeCoordinate (schema : GraphQLSchema)
    (schemaCoordinate : TypeCoordinateNode) :
    Except String (Option ResolvedSchemaElement) :=
  let typeName := schemaCoordinate.name.value
  match schema.getType typeName with
  | none => .ok none
  | some type => .ok (some (.namedType type))

/-- First copy of `resolveMemberCoordinate`: the type is asserted present,
then dispatch on its kind (enum value / input field / field), with any other
kind fatal; the member lookup itself is an ordinary miss. -/
def resolveMemberCoordinate (schema : GraphQLSchema)
    (schemaCoordinate : MemberCoordinateNode) :
    Except String (Option ResolvedSchemaElement) :=
  let typeName := schemaCoordinate.name.value
  match schema.getType typeName with
  | none =>
    .error ("Expected " ++ inspect typeName ++ " to be defined as a type in the schema.")
  | some type =>
    let memberName := schemaCoordinate.memberName.value
    if isEnumType type then
      match type.getValue memberName with
      | none => .ok none
      | some enumValue => .ok (some (.enumValue type enumValue))
    else if isInputObjectType type then
      match type.getInputFields memberName with
      | none => .ok none
      | some inputField => .ok (some (.inputField type inputField))
    else if !isObjectType type && !isInterfaceType type then
      .error ("Expected " ++ inspect typeName ++
        " to be an object type, interface type, input object type, or enum type.")
    else
      match type.getFields memberName with
      | none => .ok none
      | some field => .ok (some (.field type field))

/-- First copy of `resolveArgumentCoordinate`: the type and the field are
asserted present (and the type asserted Object or Interface); only the final
argument lookup is an ordinary miss. Field lookup is `type.getFields()`. -/
def resolveArgumentCoordinate (schema : GraphQLSchema)
    (schemaCoordinate : ArgumentCoordinateNode) :
    Except String (Option ResolvedSchemaElement) :=
  let typeName := schemaCoordinate.name.value
  match schema.getType typeName with
  | none =>
    .error ("Expected " ++ inspect typeName ++ " to be defined as a type in the schema.")
  | some type =>
    let fieldName := schemaCoordinate.fieldName.value
    if !isObjectType type && !isInterfaceType type then
      .error ("Expected " ++ inspect typeName ++ " to be an object type or interface type.")
    else
      match type.getFields fieldName with
      | none =>
        .error ("Expected " ++ inspect fieldName ++ " to exist as an argument of type " ++
          inspect typeName ++ " in the schema.")
      | some field =>
        let fieldArgumentName := schemaCoordinate.argumentName.value
        match field.args.find? (fun arg => arg.name == fieldArgumentName) with
        | none => .ok none
        | some fieldArgument => .ok (some (.fieldArgument type field fieldArgument))

/-- First copy of `resolveASTSchemaCoordinate`: dispatch on the node's
production kind. -/
def resolveASTSchemaCoordinate (schema : GraphQLSchema)
    (schemaCoordinate : SchemaCoordinateNode) :
    Except String (Option ResolvedSchemaElement) :=
  match schemaCoordinate with
  | .directiveCoordinate node => resolveDirectiveCoordinate schema node
  | .directiveArgumentCoordinate node => resolveDirectiveArgumentCoordinate schema node
  | .typeCoordinate node => resolveTypeCoordinate schema node
  | .memberCoordinate node => resolveMemberCoordinate schema node
  | .argumentCoordinate node => resolveArgumentCoordinate schema node

end Copy1

/-!
`Copy2` is the second copy of the resolver in
src/utilities/resolveSchemaCoordinate.ts (lines 427-639). It differs from the
first copy in the order of its checks, its error message texts, and in looking
fields up through `schema.getField(type, name)` instead of
`type.getFields()[name]`.
-/

namespace Copy2

/-- Second copy of `resolveTypeCoordinate`. -/
def resolveTypeCoordinate (schema : GraphQLSchema)
    (schemaCoordinate : TypeCoordinateNode) :
    Except String (Option ResolvedSchemaElement) :=
  let typeName := schemaCoordinate.name.value
  match schema.getType typeName with
  | none => .ok none
  | some type => .ok (some (.namedType type))

/-- Second copy of `resolveMemberCoordinate`: asserts up front that the type
exists and is an Enum, Input Object, Object or Interface type, then
dispatches; the Object/Interface field lookup goes through
`schema.getField`. -/
def resolveMemberCoordinate (schema : GraphQLSchema)
    (schemaCoordinate : MemberCoordinateNode) :
    Except String (Option ResolvedSchemaElement) :=
  let typeName := schemaCoordinate.name.value
  match schema.getType typeName with
  | none =>
    .error ("Expected " ++ inspect typeName ++ " to be defined as a type in the schema.")
  | some type =>
    if !isEnumType type && !isInputObjectType type &&
        !isObjectType type && !isInterfaceType type then
      .error ("Expected " ++ inspect typeName ++
        " to be an Enum, Input Object, Object or Interface type.")
    else if isEnumType type then
      let enumValueName := schemaCoordinate.memberName.value
      match type.getValue enumValueName with
      | none => .ok none
      | some enumValue => .ok (some (.enumValue type enumValue))
    else if isInputObjectType type then
      let inputFieldName := schemaCoordinate.memberName.value
      match type.getInputFields inputFieldName with
      | none => .ok none
      | some inputField => .ok (some (.inputField type inputField))
    else
      let fieldName := schemaCoordinate.memberName.value
      match schema.getField type fieldName with
      | none => .ok none
      | some field => .ok (some (.field type field))

/-- Second copy of `resolveArgumentCoordinate`: field lookup goes through
`schema.getField`. -/
def resolveArgumentCoordinate (schema : GraphQLSchema)
    (schemaCoordinate : ArgumentCoordinateNode) :
    Except String (Option ResolvedSchemaElement) :=
  let typeName := schemaCoordinate.name.value
  match schema.getType typeName with
  | none =>
    .error ("Expected " ++ inspect typeName ++ " to be defined as a type in the schema.")
  | some type =>
    if !isObjectType type && !isInterfaceType type then
      .error ("Expected " ++ inspect typeName ++ " to be an object type or interface type.")
    else
      let fieldName := schemaCoordinate.fieldName.value
      match schema.getField type fieldName with
      | none =>
        .error ("Expected " ++ inspect fieldName ++ " to exist as a field of type " ++
          inspect typeName ++ " in the schema.")
      | some field =>
        let fieldArgumentName := schemaCoordinate.argumentName.value
        match field.args.find? (fun arg => arg.name == fieldArgumentName) with
        | none => .ok none
        | some fieldArgument => .ok (some (.fieldArgument type field fieldArgument))

/-- Second copy of `resolveDirectiveCoordinate`. -/
def resolveDirectiveCoordinate (schema : GraphQLSchema)
    (schemaCoordinate : DirectiveCoordinateNode) :
    Except String (Option ResolvedSchemaElement) :=
  let directiveName := schemaCoordinate.name.value
  match schema.getDirective directiveName with
  | none => .ok none
  | some directive => .ok (some (.directive directive))

/-- Second copy of `resolveDirectiveArgumentCoordinate`. -/
def resolveDirectiveArgumentCoordinate (schema : GraphQLSchema)
    (schemaCoordinate : DirectiveArgumentCoordinateNode) :
    Except String (Option ResolvedSchemaElement) :=
  let directiveName := schemaCoordinate.name.value
  match schema.getDirective directiveName with
  | none =>
    .error ("Expected " ++ inspect directiveName ++
      " to be defined as a directive in the schema.")
  | some directive =>
    let directiveArgumentName := schemaCoordinate.argumentName.value
    match directive.args.find? (fun arg => arg.name == directiveArgumentName) with
    | none => .ok none
    | some directiveArgument => .ok (some (.directiveArgument directive directiveArgument))

/-- Second copy of `resolveASTSchemaCoordinate` (its switch lists the
productions in a different order, with the same mapping). -/
def resolveASTSchemaCoordinate (schema : GraphQLSchema)
    (schemaCoordinate : SchemaCoordinateNode) :
    Except String (Option ResolvedSchemaElement) :=
  match schemaCoordinate with
  | .typeCoordinate node => resolveTypeCoordinate schema node
  | .memberCoordinate node => resolveMemberCoordinate schema node
  | .argumentCoordinate node => resolveArgumentCoordinate schema node
  | .directiveCoordinate node => resolveDirectiveCoordinate schema node
  | .directiveArgumentCoordinate node => resolveDirectiveArgumentCoordinate schema node

end Copy2

/-- Well-formedness of a focused token relative to the source body: its end
offset lies within the body, and an EOF token is empty (it always spans
exactly the end of the body). -/
def TokenWF (body : List Char) (t : Token) : Prop :=
  t.endPos ≤ body.length ∧ (t.kind = TokenKind.EOF → t.start = t.endPos)

/-- Membership of the constituents of a resolved element in the schema graph:
the returned type, field, input field, enum value, argument and directive
objects are the preexisting entries of the maps of the schema itself, not
copies built by the resolver. -/
def ElementInSchema (schema : GraphQLSchema) : ResolvedSchemaElement → Prop
  | .namedType type => type ∈ schema.types
  | .field type field => type ∈ schema.types ∧ field ∈ type.fields
  | .inputField type inputField => type ∈ schema.types ∧ inputField ∈ type.inputFields
  | .enumValue type enumValue => type ∈ schema.types ∧ enumValue ∈ type.enumValues
  | .fieldArgument type field fieldArgument =>
      type ∈ schema.types ∧ field ∈ type.fields ∧ fieldArgument ∈ field.args
  | .directive directive => directive ∈ schema.directives
  | .directiveArgument directive directiveArgument =>
      directive ∈ schema.directives ∧ directiveArgument ∈ directive.args

/-- A position holding some character lies strictly inside the body. -/
theorem getElem?_some_lt (l : List Char) (n : Nat) (a : Char) (h : l[n]? = some a) :
    n < l.length := by
  by_contra hge
  rw [List.getElem?_eq_none (Nat.le_of_not_lt hge)] at h
  cases h

/-- The name-run scan never moves backwards. -/
theorem nameRunFrom_le (body : List Char) (fuel pos : Nat) :
    pos ≤ nameRunFrom body fuel pos := by
  induction fuel generalizing pos with
  | zero => simp [nameRunFrom]
  | succ fuel ih =>
    rw [nameRunFrom]
    split
    · split
      · exact Nat.le_trans (Nat.le_succ pos) (ih (pos + 1))
      · exact Nat.le_refl pos
    · exact Nat.le_refl pos

/-- The name-run scan stays within the body. -/
theorem nameRunFrom_le_length (body : List Char) (fuel pos : Nat) (hp : pos ≤ body.length) :
    nameRunFrom body fuel pos ≤ body.length := by
  induction fuel generalizing pos with
  | zero => simpa [nameRunFrom]
  | succ fuel ih =>
    rw [nameRunFrom]
    split
    · rename_i c hc
      split
      · exact ih (pos + 1) (getElem?_some_lt body pos c hc)
      · exact hp
    · exact hp

/-- Every character the name-run scan steps over is a name-continue
character. -/
theorem nameRunFrom_isNameContinue (body : List Char) (fuel pos q : Nat)
    (h1 : pos ≤ q) (h2 : q < nameRunFrom body fuel pos) :
    ∃ c, body[q]? = some c ∧ isNameContinue c = true := by
  induction fuel generalizing pos with
  | zero =>
    rw [nameRunFrom] at h2
    omega
  | succ fuel ih =>
    rw [nameRunFrom] at h2
    split at h2
    · rename_i c hc
      split at h2
      · rename_i hw
        rcases Nat.eq_or_lt_of_le h1 with rfl | hlt
        · exact ⟨c, hc, hw⟩
        · exact ih (pos + 1) hlt h2
      · omega
    · omega

/-- A token returned by `readNextToken` either is a non-EOF token starting at
the requested position, spanning at least one character and ending within the
body, or is the EOF token spanning exactly the end of the body (only when the
requested position is at or past the end). -/
theorem readNextToken_ok_cases (body : List Char) (pos : Nat) (t : Token)
    (h : readNextToken body pos = .ok t) :
    (pos < body.length ∧ t.kind ≠ TokenKind.EOF ∧ t.start = pos ∧ pos < t.endPos ∧
      t.endPos ≤ body.length) ∨
    (body.length ≤ pos ∧ t.kind = TokenKind.EOF ∧ t.start = body.length ∧
      t.endPos = body.length) := by
  rw [readNextToken] at h
  split at h
  · rename_i c hc
    left
    have hlt : pos < body.length := getElem?_some_lt body pos c hc
    split_ifs at h with h1 h2 h3 h4 h5 h6
    all_goals first
      | (obtain rfl := Except.ok.inj h
         exact ⟨hlt, by simp, rfl, Nat.lt_succ_self pos, hlt⟩)
      | (obtain rfl := Except.ok.inj h
         refine ⟨hlt, by simp [readName], by simp [readName], ?_, ?_⟩
         · exact Nat.lt_of_lt_of_le (Nat.lt_succ_self pos)
             (by simpa [readName] using nameRunFrom_le body body.length (pos + 1))
         · simpa [readName] using nameRunFrom_le_length body body.length (pos + 1) hlt)
  · rename_i hc
    right
    obtain rfl := Except.ok.inj h
    exact ⟨List.getElem?_eq_none_iff.mp hc, rfl, rfl, rfl⟩

/-- `readNextToken` invoked at a whitespace, tab, newline or carriage-return
character fails with a lexical error reported at exactly that offset (line 1,
column offset + 1). -/
theorem readNextToken_whitespace (body : List Char) (p : Nat) (c : Char)
    (hp : body[p]? = some c) (hw : isForbiddenWhitespace c = true) :
    readNextToken body p =
      .error ⟨"Invalid character: " ++ printCodePoint c ++ ".", 1, p + 1⟩ := by
  have hcases : c = ' ' ∨ c = '\t' ∨ c = '\n' ∨ c = '\r' := by
    simp [isForbiddenWhitespace] at hw
    tauto
  rcases hcases with rfl | rfl | rfl | rfl <;>
    simp [readNextToken, hp, isNameStart, isLetter]

/-- If the body holds a forbidden whitespace character at position `p`, a
successful `advance` from a state focused before `p` stays focused before `p`
and never produces the EOF token: no token can cover or pass the whitespace
character. -/
theorem advance_before_whitespace (body : List Char) (p : Nat) (c : Char)
    (hp : body[p]? = some c) (hw : isForbiddenWhitespace c = true)
    (s : SchemaCoordinateLexer) (hb : s.body = body) (hle : s.token.endPos ≤ p)
    (hne : s.token.kind ≠ TokenKind.EOF) (s' : SchemaCoordinateLexer) (t : Token)
    (h : s.advance = .ok (s', t)) :
    s'.body = body ∧ s'.token.endPos ≤ p ∧ s'.token.kind ≠ TokenKind.EOF := by
  rw [SchemaCoordinateLexer.advance, if_neg hne] at h
  cases hr : readNextToken s.body s.token.endPos <;> rw [hr] at h
  · cases h
  · rename_i t0
    obtain ⟨rfl, rfl⟩ := Prod.mk.injEq .. ▸ Except.ok.inj h
    rcases Nat.eq_or_lt_of_le hle with heq | hlt
    · exfalso
      rw [hb, heq, readNextToken_whitespace body p c hp hw] at hr
      cases hr
    · have hplen : p < body.length := getElem?_some_lt body p c hp
      rw [hb] at hr
      rw [readNextToken] at hr
      split at hr
      case h_2 hc0 => exact absurd (List.getElem?_eq_none_iff.mp hc0) (by omega)
      case h_1 c0 hc0 =>
        split_ifs at hr with h1 h2 h3 h4 h5 h6
        all_goals (obtain rfl := Except.ok.inj hr)
        · exact ⟨hb, by simpa using hlt, by simp⟩
        · exact ⟨hb, by simpa using hlt, by simp⟩
        · exact ⟨hb, by simpa using hlt, by simp⟩
        · exact ⟨hb, by simpa using hlt, by simp⟩
        · exact ⟨hb, by simpa using hlt, by simp⟩
        · refine ⟨hb, ?_, by simp [readName]⟩
          show (readName body s.token.endPos).endPos ≤ p
          by_contra hgt
          have hrun : p < nameRunFrom body body.length (s.token.endPos + 1) := by
            simpa [readName] using Nat.lt_of_not_le hgt
          obtain ⟨c', hc', hcont⟩ :=
            nameRunFrom_isNameContinue body body.length (s.token.endPos + 1) p hlt hrun
          rw [hp] at hc'
          obtain rfl := Option.some.inj hc'
          have hfc : isNameContinue c = false := by
            have hcs : c = ' ' ∨ c = '\t' ∨ c = '\n' ∨ c = '\r' := by
              simp [isForbiddenWhitespace] at hw
              tauto
            rcases hcs with rfl | rfl | rfl | rfl <;> decide
          rw [hfc] at hcont
          cases hcont

/-- C1: for every schema and every MemberCoordinate `Type.member`, the first
resolver copy throws when the named type is absent; for an Enum type it
returns the EnumValue element exactly when the named value exists and
undefined otherwise; for an Input Object type an InputField element or
undefined; for an Object or Interface type a Field element or undefined; and
for any other kind (scalar or union) it throws. -/
theorem c1_member_coordinate_resolution (schema : GraphQLSchema) (n m : String) :
    (schema.getType n = none →
      ∃ e, Copy1.resolveMemberCoordinate schema ⟨⟨n⟩, ⟨m⟩⟩ = .error e) ∧
    (∀ t, schema.getType n = some t →
      (t.kind = TypeKind.ENUM →
        Copy1.resolveMemberCoordinate schema ⟨⟨n⟩, ⟨m⟩⟩ =
          .ok ((t.getValue m).map fun v => .enumValue t v)) ∧
      (t.kind = TypeKind.INPUT_OBJECT →
        Copy1.resolveMemberCoordinate schema ⟨⟨n⟩, ⟨m⟩⟩ =
          .ok ((t.getInputFields m).map fun f => .inputField t f)) ∧
      ((t.kind = TypeKind.OBJECT ∨ t.kind = TypeKind.INTERFACE) →
        Copy1.resolveMemberCoordinate schema ⟨⟨n⟩, ⟨m⟩⟩ =
          .ok ((t.getFields m).map fun f => .field t f)) ∧
      ((t.kind = TypeKind.SCALAR ∨ t.kind = TypeKind.UNION) →
        ∃ e, Copy1.resolveMemberCoordinate schema ⟨⟨n⟩, ⟨m⟩⟩ = .error e)) := by
  refine ⟨fun h => ?_, fun t ht => ⟨fun hk => ?_, fun hk => ?_, fun hk => ?_, fun hk => ?_⟩⟩
  · simp [Copy1.resolveMemberCoordinate, h]
  · cases hv : t.getValue m <;>
      simp [Copy1.resolveMemberCoordinate, ht, isEnumType, hk, hv]
  · cases hv : t.getInputFields m <;>
      simp [Copy1.resolveMemberCoordinate, ht, isEnumType, isInputObjectType, hk, hv]
  · rcases hk with hk | hk <;>
      cases hv : t.getFields m <;>
      simp [Copy1.resolveMemberCoordinate, ht, isEnumType, isInputObjectType, isObjectType,
        isInterfaceType, hk, hv]
  · rcases hk with hk | hk <;>
      simp [Copy1.resolveMemberCoordinate, ht, isEnumType, isInputObjectType, isObjectType,
        isInterfaceType, hk]

/-- C1 witness: resolving `MyEnum.VALUE` against a schema defining enum
`MyEnum` with value `VALUE` yields the EnumValue element. -/
theorem c1_member_coordinate_resolution_witness :
    Copy1.resolveMemberCoordinate ⟨[⟨"MyEnum", TypeKind.ENUM, [], [], [⟨"VALUE"⟩]⟩], []⟩
        ⟨⟨"MyEnum"⟩, ⟨"VALUE"⟩⟩ =
      .ok (some (.enumValue ⟨"MyEnum", TypeKind.ENUM, [], [], [⟨"VALUE"⟩]⟩ ⟨"VALUE"⟩)) :=
  ((c1_member_coordinate_resolution ⟨[⟨"MyEnum", TypeKind.ENUM, [], [], [⟨"VALUE"⟩]⟩], []⟩
      "MyEnum" "VALUE").2 ⟨"MyEnum", TypeKind.ENUM, [], [], [⟨"VALUE"⟩]⟩ rfl).1 rfl

/-- C2: for every schema, the first resolver copy resolves an
ArgumentCoordinate `Type.field(arg:)` by throwing when the type is absent,
throwing when the type is not an Object or Interface type, throwing when the
field is absent, and returning exactly the result of the final argument
lookup (undefined precisely when only the argument is absent); symmetrically,
a DirectiveArgumentCoordinate `@dir(arg:)` throws when the directive is
absent and returns exactly the result of the argument lookup. -/
theorem c2_argument_coordinate_resolution (schema : GraphQLSchema) (n f a d da : String) :
    ((schema.getType n = none →
        ∃ e, Copy1.resolveArgumentCoordinate schema ⟨⟨n⟩, ⟨f⟩, ⟨a⟩⟩ = .error e) ∧
      (∀ t, schema.getType n = some t →
        (¬(t.kind = TypeKind.OBJECT ∨ t.kind = TypeKind.INTERFACE) →
          ∃ e, Copy1.resolveArgumentCoordinate schema ⟨⟨n⟩, ⟨f⟩, ⟨a⟩⟩ = .error e) ∧
        ((t.kind = TypeKind.OBJECT ∨ t.kind = TypeKind.INTERFACE) →
          (t.getFields f = none →
            ∃ e, Copy1.resolveArgumentCoordinate schema ⟨⟨n⟩, ⟨f⟩, ⟨a⟩⟩ = .error e) ∧
          (∀ fld, t.getFields f = some fld →
            Copy1.resolveArgumentCoordinate schema ⟨⟨n⟩, ⟨f⟩, ⟨a⟩⟩ =
              .ok ((fld.args.find? fun arg => arg.name == a).map
                fun x => .fieldArgument t fld x))))) ∧
    ((schema.getDirective d = none →
        ∃ e, Copy1.resolveDirectiveArgumentCoordinate schema ⟨⟨d⟩, ⟨da⟩⟩ = .error e) ∧
      (∀ dir, schema.getDirective d = some dir →
        Copy1.resolveDirectiveArgumentCoordinate schema ⟨⟨d⟩, ⟨da⟩⟩ =
          .ok ((dir.args.find? fun arg => arg.name == da).map
            fun x => .directiveArgument dir x))) := by
  refine ⟨⟨fun h => ?_, fun t ht => ⟨fun hk => ?_, fun hk => ⟨fun hf => ?_, fun fld hf => ?_⟩⟩⟩,
    fun h => ?_, fun dir hd => ?_⟩
  · simp [Copy1.resolveArgumentCoordinate, h]
  · have hno : t.kind ≠ TypeKind.OBJECT ∧ t.kind ≠ TypeKind.INTERFACE := by
      constructor <;> intro hc <;> exact hk (by simp [hc])
    cases hkind : t.kind <;> simp [hkind] at hno ⊢ <;>
      simp [Copy1.resolveArgumentCoordinate, ht, isObjectType, isInterfaceType, hkind]
  · rcases hk with hk | hk <;>
      simp [Copy1.resolveArgumentCoordinate, ht, isObjectType, isInterfaceType, hk, hf]
  · rcases hk with hk | hk <;>
      cases ha : fld.args.find? fun arg => arg.name == a <;>
      simp [Copy1.resolveArgumentCoordinate, ht, isObjectType, isInterfaceType, hk, hf, ha]
  · simp [Copy1.resolveDirectiveArgumentCoordinate, h]
  · cases ha : dir.args.find? fun arg => arg.name == da <;>
      simp [Copy1.resolveDirectiveArgumentCoordinate, hd, ha]

/-- C2 witness: resolving `@deprecated(reason:)` against a schema defining
the directive with that argument yields the DirectiveArgument element. -/
theorem c2_argument_coordinate_resolution_witness :
    Copy1.resolveDirectiveArgumentCoordinate ⟨[], [⟨"deprecated", [⟨"reason"⟩]⟩]⟩
        ⟨⟨"deprecated"⟩, ⟨"reason"⟩⟩ =
      .ok (some (.directiveArgument ⟨"deprecated", [⟨"reason"⟩]⟩ ⟨"reason"⟩)) :=
  (c2_argument_coordinate_resolution ⟨[], [⟨"deprecated", [⟨"reason"⟩]⟩]⟩
      "MyType" "field" "arg" "deprecated" "reason").2.2 ⟨"deprecated", [⟨"reason"⟩]⟩ rfl

/-- C3: for every schema, the first resolver copy resolves a TypeCoordinate
to exactly the (fallible) type lookup wrapped as a NamedType element, and a
DirectiveCoordinate to exactly the (fallible) directive lookup wrapped as a
Directive element: a missing name gives undefined, never an error. -/
theorem c3_root_lookups_are_fallible (schema : GraphQLSchema) (n d : String) :
    Copy1.resolveTypeCoordinate schema ⟨⟨n⟩⟩ =
      .ok ((schema.getType n).map fun t => .namedType t) ∧
    Copy1.resolveDirectiveCoordinate schema ⟨⟨d⟩⟩ =
      .ok ((schema.getDirective d).map fun dir => .directive dir) := by
  constructor
  · cases h : schema.getType n <;>
      simp [Copy1.resolveTypeCoordinate, h]
  · cases h : schema.getDirective d <;>
      simp [Copy1.resolveDirectiveCoordinate, h]

/-- C4: the two resolver copies are extensionally equal: on every schema and
SchemaCoordinateNode they either return equal elements, both return
undefined, or both throw — stated as equality after `Except.toOption`, which
identifies exactly the throw outcomes (whose message texts differ between the
copies). Field lookups agree because `schema.getField` (modelled from the
specification) is the field map of the type. -/
theorem c4_resolver_copies_extensionally_equal (schema : GraphQLSchema)
    (node : SchemaCoordinateNode) :
    (Copy1.resolveASTSchemaCoordinate schema node).toOption =
      (Copy2.resolveASTSchemaCoordinate schema node).toOption := by
  cases node with
  | typeCoordinate nd => rfl
  | directiveCoordinate nd => rfl
  | directiveArgumentCoordinate nd => rfl
  | memberCoordinate nd =>
    show (Copy1.resolveMemberCoordinate schema nd).toOption =
      (Copy2.resolveMemberCoordinate schema nd).toOption
    cases ht : schema.getType nd.name.value with
    | none => simp [Copy1.resolveMemberCoordinate, Copy2.resolveMemberCoordinate, ht,
        Except.toOption]
    | some t =>
      cases hk : t.kind <;>
        simp [Copy1.resolveMemberCoordinate, Copy2.resolveMemberCoordinate,
          GraphQLSchema.getField, isEnumType, isInputObjectType, isObjectType,
          isInterfaceType, ht, hk, Except.toOption]
  | argumentCoordinate nd =>
    show (Copy1.resolveArgumentCoordinate schema nd).toOption =
      (Copy2.resolveArgumentCoordinate schema nd).toOption
    cases ht : schema.getType nd.name.value with
    | none => simp [Copy1.resolveArgumentCoordinate, Copy2.resolveArgumentCoordinate, ht,
        Except.toOption]
    | some t =>
      cases hk : t.kind <;>
        simp [Copy1.resolveArgumentCoordinate, Copy2.resolveArgumentCoordinate,
          GraphQLSchema.getField, isObjectType, isInterfaceType, ht, hk, Except.toOption] <;>
        cases hf : t.getFields nd.fieldName.value <;>
        simp [hf, Except.toOption]

/-- C5 (code bug): `parseSchemaCoordinate` of schemaCoordinate.ts rejects the
trailing `.deep` segment of `MyType.field.deep` with the expected message,
but the raised error carries no location at all — its local `syntaxError`
passes no byte offset, so no 1-indexed column is reported, contrary to the
claim that every lexical or syntax error carries one. -/
theorem c5_trailing_segment_error_has_no_position :
    SchemaCoordinate.parseSchemaCoordinate "MyType.field.deep" =
      .error ⟨"Syntax Error: Expected <EOF>, found ..", none⟩ := rfl

/-- C6 (code bug): the schema-coordinate lexer does not skip a leading
byte-order mark: advancing over `"﻿foo"` fails with a lexical error at
line 1, column 1, whereas the claim (and the repository test suite) expects a
NAME token `foo` spanning offsets 1 to 4. -/
theorem c6_bom_is_rejected :
    (SchemaCoordinateLexer.init "﻿foo".data).advance =
      .error ⟨"Invalid character: U+FEFF.", 1, 1⟩ := by decide

/-- C7: whitespace, tab, newline and carriage return are never ignorable:
lexing a token at such a character fails with a lexical error at exactly that
offset (line 1, column offset + 1), and over a body containing such a
character no sequence of advances from the initial lexer state ever reaches
the EOF token — whole-input lexing always fails. -/
theorem c7_whitespace_is_fatal (body : List Char) (p : Nat) (c : Char)
    (hp : body[p]? = some c) (hw : isForbiddenWhitespace c = true) :
    readNextToken body p =
      .error ⟨"Invalid character: " ++ printCodePoint c ++ ".", 1, p + 1⟩ ∧
    ∀ n s' t, SchemaCoordinateLexer.advanceIter n (SchemaCoordinateLexer.init body) =
      .ok (s', t) → t.kind ≠ TokenKind.EOF := by
  refine ⟨readNextToken_whitespace body p c hp hw, ?_⟩
  have main : ∀ n (s : SchemaCoordinateLexer), s.body = body → s.token.endPos ≤ p →
      s.token.kind ≠ TokenKind.EOF →
      ∀ s' t, SchemaCoordinateLexer.advanceIter n s = .ok (s', t) →
        t.kind ≠ TokenKind.EOF := by
    intro n
    induction n with
    | zero =>
      intro s hb hle hne s' t h
      obtain ⟨rfl, rfl⟩ := Prod.mk.injEq .. ▸ Except.ok.inj h
      exact hne
    | succ n ih =>
      intro s hb hle hne s' t h
      rw [SchemaCoordinateLexer.advanceIter] at h
      cases ha : s.advance <;> rw [ha] at h
      · cases h
      · rename_i pr
        obtain ⟨hb', hle', hne'⟩ :=
          advance_before_whitespace body p c hp hw s hb hle hne pr.1 pr.2 (by rw [ha])
        exact ih pr.1 hb' hle' hne' s' t h
  intro n s' t h
  exact main n (SchemaCoordinateLexer.init body) rfl (Nat.zero_le p)
    (fun hcon => TokenKind.noConfusion hcon) s' t h

/-- C7 witness: lexing `"\nName.field"` fails with a lexical error at line 1,
column 1. -/
theorem c7_whitespace_is_fatal_witness :
    readNextToken "\nName.field".data 0 =
      .error ⟨"Invalid character: U+000A.", 1, 1⟩ :=
  (c7_whitespace_is_fatal "\nName.field".data 0 '\n' rfl rfl).1

/-- C8: the EOF state is absorbing and idempotent: from any lexer state whose
current token is EOF, any number of further advances succeeds, keeps
returning that very token, and creates no new tokens (the emitted chain is
unchanged). -/
theorem c8_eof_absorbing (n : Nat) (s : SchemaCoordinateLexer)
    (h : s.token.kind = TokenKind.EOF) :
    ∃ s', SchemaCoordinateLexer.advanceIter n s = .ok (s', s.token) ∧
      s'.token = s.token ∧ s'.emitted = s.emitted ∧ s'.body = s.body := by
  induction n generalizing s with
  | zero => exact ⟨s, rfl, rfl, rfl, rfl⟩
  | succ n ih =>
    rw [SchemaCoordinateLexer.advanceIter]
    rw [show s.advance = .ok ({ s with lastToken := s.token }, s.token) from by
      rw [SchemaCoordinateLexer.advance, if_pos h]]
    exact ih { s with lastToken := s.token } h

/-- C8 witness: three further advances from the EOF state reached after
lexing `"a"` keep returning the same EOF token and emit nothing new. -/
theorem c8_eof_absorbing_witness :
    ∃ s', SchemaCoordinateLexer.advanceIter 3
        ⟨['a'], ⟨TokenKind.NAME, 0, 1, "a"⟩, ⟨TokenKind.EOF, 1, 1, ""⟩,
          [⟨TokenKind.SOF, 0, 0, ""⟩, ⟨TokenKind.NAME, 0, 1, "a"⟩,
            ⟨TokenKind.EOF, 1, 1, ""⟩]⟩ =
        .ok (s', ⟨TokenKind.EOF, 1, 1, ""⟩) ∧
      s'.token = ⟨TokenKind.EOF, 1, 1, ""⟩ ∧
      s'.emitted = [⟨TokenKind.SOF, 0, 0, ""⟩, ⟨TokenKind.NAME, 0, 1, "a"⟩,
        ⟨TokenKind.EOF, 1, 1, ""⟩] ∧
      s'.body = ['a'] :=
  c8_eof_absorbing 3
    ⟨['a'], ⟨TokenKind.NAME, 0, 1, "a"⟩, ⟨TokenKind.EOF, 1, 1, ""⟩,
      [⟨TokenKind.SOF, 0, 0, ""⟩, ⟨TokenKind.NAME, 0, 1, "a"⟩, ⟨TokenKind.EOF, 1, 1, ""⟩]⟩
    rfl

/-- C9: resolution only returns references into the schema graph: whenever
the first copy of `resolveASTSchemaCoordinate` returns a resolved element,
every schema object inside it is a preexisting member of the maps of the
schema (and the embedding is a pure function of the schema, which the
resolver never mutates). -/
theorem c9_resolution_returns_schema_references (schema : GraphQLSchema)
    (node : SchemaCoordinateNode) (r : ResolvedSchemaElement)
    (h : Copy1.resolveASTSchemaCoordinate schema node = .ok (some r)) :
    ElementInSchema schema r := by
  cases node with
  | typeCoordinate nd =>
    simp only [Copy1.resolveASTSchemaCoordinate, Copy1.resolveTypeCoordinate] at h
    split at h
    · exact Option.noConfusion (Except.ok.inj h)
    · rename_i t ht
      obtain rfl := Option.some.inj (Except.ok.inj h)
      exact List.mem_of_find?_eq_some ht
  | directiveCoordinate nd =>
    simp only [Copy1.resolveASTSchemaCoordinate, Copy1.resolveDirectiveCoordinate] at h
    split at h
    · exact Option.noConfusion (Except.ok.inj h)
    · rename_i dir hd
      obtain rfl := Option.some.inj (Except.ok.inj h)
      exact List.mem_of_find?_eq_some hd
  | directiveArgumentCoordinate nd =>
    simp only [Copy1.resolveASTSchemaCoordinate,
      Copy1.resolveDirectiveArgumentCoordinate] at h
    split at h
    · exact Except.noConfusion h
    · rename_i dir hd
      split at h
      · exact Option.noConfusion (Except.ok.inj h)
      · rename_i arg ha
        obtain rfl := Option.some.inj (Except.ok.inj h)
        exact ⟨List.mem_of_find?_eq_some hd, List.mem_of_find?_eq_some ha⟩
  | memberCoordinate nd =>
    simp only [Copy1.resolveASTSchemaCoordinate, Copy1.resolveMemberCoordinate] at h
    split at h
    · exact Except.noConfusion h
    · rename_i t ht
      have htm : t ∈ schema.types := List.mem_of_find?_eq_some ht
      split at h
      · split at h
        · exact Option.noConfusion (Except.ok.inj h)
        · rename_i v hv
          obtain rfl := Option.some.inj (Except.ok.inj h)
          exact ⟨htm, List.mem_of_find?_eq_some hv⟩
      · split at h
        · split at h
          · exact Option.noConfusion (Except.ok.inj h)
          · rename_i f hf
            obtain rfl := Option.some.inj (Except.ok.inj h)
            exact ⟨htm, List.mem_of_find?_eq_some hf⟩
        · split at h
          · exact Except.noConfusion h
          · split at h
            · exact Option.noConfusion (Except.ok.inj h)
            · rename_i f hf
              obtain rfl := Option.some.inj (Except.ok.inj h)
              exact ⟨htm, List.mem_of_find?_eq_some hf⟩
  | argumentCoordinate nd =>
    simp only [Copy1.resolveASTSchemaCoordinate, Copy1.resolveArgumentCoordinate] at h
    split at h
    · exact Except.noConfusion h
    · rename_i t ht
      have htm : t ∈ schema.types := List.mem_of_find?_eq_some ht
      split at h
      · exact Except.noConfusion h
      · split at h
        · exact Except.noConfusion h
        · rename_i f hf
          split at h
          · exact Option.noConfusion (Except.ok.inj h)
          · rename_i arg ha
            obtain rfl := Option.some.inj (Except.ok.inj h)
            exact ⟨htm, List.mem_of_find?_eq_some hf, List.mem_of_find?_eq_some ha⟩

/-- C9 witness: the Field element returned for `Query.hero` consists of the
schema entries themselves. -/
theorem c9_resolution_returns_schema_references_witness :
    ElementInSchema ⟨[⟨"Query", TypeKind.OBJECT, [⟨"hero", []⟩], [], []⟩], []⟩
      (.field ⟨"Query", TypeKind.OBJECT, [⟨"hero", []⟩], [], []⟩ ⟨"hero", []⟩) :=
  c9_resolution_returns_schema_references
    ⟨[⟨"Query", TypeKind.OBJECT, [⟨"hero", []⟩], [], []⟩], []⟩
    (.memberCoordinate ⟨⟨"Query"⟩, ⟨"hero"⟩⟩)
    (.field ⟨"Query", TypeKind.OBJECT, [⟨"hero", []⟩], [], []⟩ ⟨"hero", []⟩) rfl

/-- C10: token adjacency: from any well-formed lexer state, a successful
advance returns a token that begins exactly at the end offset of the current
token, agrees with `lookahead`, becomes the new focus, and preserves
well-formedness — so the emitted tokens tile the consumed prefix of the input
with no gaps. -/
theorem c10_token_adjacency (s s' : SchemaCoordinateLexer) (t : Token)
    (hwf : TokenWF s.body s.token) (h : s.advance = .ok (s', t)) :
    t.start = s.token.endPos ∧ s.lookahead = .ok t ∧ s'.token = t ∧ s'.body = s.body ∧
      TokenWF s'.body s'.token := by
  rw [SchemaCoordinateLexer.advance] at h
  by_cases he : s.token.kind = TokenKind.EOF
  · rw [if_pos he] at h
    obtain ⟨rfl, rfl⟩ := Prod.mk.injEq .. ▸ Except.ok.inj h
    exact ⟨hwf.2 he, by rw [SchemaCoordinateLexer.lookahead, if_pos he], rfl, rfl, hwf⟩
  · rw [if_neg he] at h
    cases hr : readNextToken s.body s.token.endPos <;> rw [hr] at h
    · cases h
    · rename_i t0
      obtain ⟨rfl, rfl⟩ := Prod.mk.injEq .. ▸ Except.ok.inj h
      rcases readNextToken_ok_cases s.body s.token.endPos t0 hr with
        ⟨_, hne, hstart, _, hend⟩ | ⟨hge, _, hstart, hend⟩
      · exact ⟨hstart, by rw [SchemaCoordinateLexer.lookahead, if_neg he, hr], rfl, rfl,
          hend, fun hk => absurd hk hne⟩
      · have hb : s.token.endPos = s.body.length := Nat.le_antisymm hwf.1 hge
        exact ⟨hstart.trans hb.symm, by rw [SchemaCoordinateLexer.lookahead, if_neg he, hr],
          rfl, rfl, Nat.le_of_eq hend, fun _ => hstart.trans hend.symm⟩

/-- C10 witness: from the initial state over `"ab"`, the first advance yields
the NAME token starting at offset 0, the end of the start-of-file token. -/
theorem c10_token_adjacency_witness :
    (⟨TokenKind.NAME, 0, 2, "ab"⟩ : Token).start =
        (SchemaCoordinateLexer.init "ab".data).token.endPos ∧
      (SchemaCoordinateLexer.init "ab".data).lookahead =
        .ok ⟨TokenKind.NAME, 0, 2, "ab"⟩ ∧
      (⟨['a', 'b'], ⟨TokenKind.SOF, 0, 0, ""⟩, ⟨TokenKind.NAME, 0, 2, "ab"⟩,
        [⟨TokenKind.SOF, 0, 0, ""⟩, ⟨TokenKind.NAME, 0, 2, "ab"⟩]⟩ :
          SchemaCoordinateLexer).token = ⟨TokenKind.NAME, 0, 2, "ab"⟩ ∧
      (⟨['a', 'b'], ⟨TokenKind.SOF, 0, 0, ""⟩, ⟨TokenKind.NAME, 0, 2, "ab"⟩,
        [⟨TokenKind.SOF, 0, 0, ""⟩, ⟨TokenKind.NAME, 0, 2, "ab"⟩]⟩ :
          SchemaCoordinateLexer).body = (SchemaCoordinateLexer.init "ab".data).body ∧
      TokenWF (⟨['a', 'b'], ⟨TokenKind.SOF, 0, 0, ""⟩, ⟨TokenKind.NAME, 0, 2, "ab"⟩,
        [⟨TokenKind.SOF, 0, 0, ""⟩, ⟨TokenKind.NAME, 0, 2, "ab"⟩]⟩ :
          SchemaCoordinateLexer).body
        (⟨['a', 'b'], ⟨TokenKind.SOF, 0, 0, ""⟩, ⟨TokenKind.NAME, 0, 2, "ab"⟩,
          [⟨TokenKind.SOF, 0, 0, ""⟩, ⟨TokenKind.NAME, 0, 2, "ab"⟩]⟩ :
            SchemaCoordinateLexer).token :=
  c10_token_adjacency (SchemaCoordinateLexer.init "ab".data)
    ⟨['a', 'b'], ⟨TokenKind.SOF, 0, 0, ""⟩, ⟨TokenKind.NAME, 0, 2, "ab"⟩,
      [⟨TokenKind.SOF, 0, 0, ""⟩, ⟨TokenKind.NAME, 0, 2, "ab"⟩]⟩
    ⟨TokenKind.NAME, 0, 2, "ab"⟩ ⟨by decide, by decide⟩ rfl
